import Mathlib

/-!
Shallow embedding of `app/services/comfyui.py` (MoneyPrinterTurbo):
`generate_image_from_comfyui` and `search_images_comfyui`.

JSON values handled by the code are modelled by the inductive `Json` below
(numbers as `Int`; no claim touches float behaviour).  The external JSON
library (`json.loads` / `json.dumps`) is passed in as parameters
`loads : String → Option Json` and `dumps : Json → String`, matching the
spec, which lists the JSON parsing library among the excluded external
collaborators.  The HTTP transport is an oracle record `Env`: one response
per call site (submission, per-attempt history fetch, per-attempt
per-URL image download, final queue-status check).  Python exceptions are
modelled with `Except Unit`; truthiness, the `in` operator, item indexing
and `str()` conversion are modelled per Python semantics on the `Json`
constructors.  Filesystem writes are modelled by returning the path and the
byte payload that the code writes.
-/

namespace ComfyUI

/-- JSON values as the Python code sees them after `json.loads`:
`dict` → `obj` (insertion-ordered association list), `list` → `arr`,
`str` → `str`, numbers → `num` (modelled as `Int`), `True/False` → `bool`,
`None` → `null`. -/
inductive Json where
  | null
  | bool (b : Bool)
  | num (n : Int)
  | str (s : String)
  | arr (elems : List Json)
  | obj (fields : List (String × Json))

/-- Python truthiness of a JSON value: `None`, `False`, `0`, `""`, `[]` and
an empty dict are falsy, everything else is truthy. -/
def Json.truthy : Json → Bool
  | .null => false
  | .bool b => b
  | .num n => n != 0
  | .str s => !s.isEmpty
  | .arr xs => !xs.isEmpty
  | .obj fs => !fs.isEmpty

/-- Python `d.get(k)` on a dict with string keys: the first (only) binding of
`k`, if any. -/
def lookupStr (fs : List (String × Json)) (k : String) : Option Json :=
  match fs with
  | [] => none
  | (k', v) :: rest => if k' = k then some v else lookupStr rest k

/-- Python `d.get(pid)` where `pid` is an arbitrary JSON value used as key.
Keys of a dict produced by `json.loads` are strings, so a non-string `pid`
never matches any entry. -/
def lookupPid (fs : List (String × Json)) (pid : Json) : Option Json :=
  match pid with
  | .str s => lookupStr fs s
  | _ => none

/-- Replace the value bound to key `k` (Python `d[k] = v` on an existing
key keeps the entry in place). -/
def setKey (fs : List (String × Json)) (k : String) (v : Json) : List (String × Json) :=
  fs.map (fun p => if p.1 = k then (p.1, v) else p)

/-- Does `pat` occur as a contiguous sublist of `s`?  (Python `pat in s` on
strings.)  An empty `pat` occurs in every string. -/
def containsSub (pat : List Char) : List Char → Bool
  | [] => pat.isEmpty
  | c :: rest => pat.isPrefixOf (c :: rest) || containsSub pat rest

/-- Python `str.replace(pat, rep)`, written with explicit fuel so it is
structural: scans left to right, replaces each non-overlapping occurrence,
never rescans the replacement.  With `fuel ≥ s.length` the fuel never runs
out.  (Python replaces around every position when `pat` is empty; the code
only ever calls this with the fixed non-empty patterns, so the `pat = []`
behaviour is never exercised.) -/
def replaceFuel (pat rep : List Char) : Nat → List Char → List Char
  | 0, s => s
  | fuel + 1, s =>
    match s with
    | [] => []
    | c :: rest =>
      if !pat.isEmpty && pat.isPrefixOf s then
        rep ++ replaceFuel pat rep fuel (s.drop pat.length)
      else
        c :: replaceFuel pat rep fuel rest

/-- Python `s.replace(pat, rep)`. -/
def pyReplace (s pat rep : String) : String :=
  String.mk (replaceFuel pat.data rep.data s.data.length s.data)

/-- Python `needle in container` for the container shapes the code meets:
substring test on a string, key test on a dict, element equality on a list
(a string equals only an equal string).  On `None`, booleans and numbers the
operator raises `TypeError`. -/
def pyContains (needle : String) : Json → Except Unit Bool
  | .obj fs => .ok ((lookupStr fs needle).isSome)
  | .str s => .ok (containsSub needle.data s.data)
  | .arr xs => .ok (xs.any (fun x => match x with | .str s => s = needle | _ => false))
  | _ => .error ()

/-- Python `container[k]` with a string key `k`: dict lookup; on any other
value (including strings and lists, whose indices must be integers) it
raises `TypeError`. -/
def pyIndex : Json → String → Except Unit Json
  | .obj fs, k =>
    match lookupStr fs k with
    | some v => .ok v
    | none => .error ()
  | _, _ => .error ()

/-- Join a list of chunks with a separator (used as the spec-side reading of
"replace every occurrence": split on the token, join with the prompt). -/
def joinWith (sep : List Char) : List (List Char) → List Char
  | [] => []
  | [x] => x
  | x :: y :: xs => x ++ sep ++ joinWith sep (y :: xs)

/-- Split `s` at every non-overlapping occurrence of `pat`, left to right
(Python `s.split(pat)`), with explicit fuel like `replaceFuel`. -/
def splitOnFuel (pat : List Char) : Nat → List Char → List (List Char)
  | 0, s => [s]
  | fuel + 1, s =>
    match s with
    | [] => [[]]
    | c :: rest =>
      if !pat.isEmpty && pat.isPrefixOf s then
        [] :: splitOnFuel pat fuel (s.drop pat.length)
      else
        match splitOnFuel pat fuel rest with
        | [] => [[c]]
        | p :: ps => (c :: p) :: ps

/-- Comma-space join, as Python uses between elements of a printed
container. -/
def commaJoin : List String → String
  | [] => ""
  | [x] => x
  | x :: y :: xs => x ++ ", " ++ commaJoin (y :: xs)

/-- A single-quote character, written by code point to keep the source free
of quote literals. -/
def squote : String := String.mk [Char.ofNat 39]

mutual
/-- Python `repr` of a JSON value (`None`, `True`, decimal integers,
single-quoted strings, bracketed lists, braced dicts).  Escaping of quote
or backslash characters inside strings is not modelled; no claim exercises
it. -/
def pyRepr : Json → String
  | .null => "None"
  | .bool true => "True"
  | .bool false => "False"
  | .num n => toString n
  | .str s => squote ++ s ++ squote
  | .arr xs => "[" ++ commaJoin (pyReprElems xs) ++ "]"
  | .obj fs => "\x7b" ++ commaJoin (pyReprFields fs) ++ "\x7d"

/-- Helper of `pyRepr` for list elements. -/
def pyReprElems : List Json → List String
  | [] => []
  | x :: xs => pyRepr x :: pyReprElems xs

/-- Helper of `pyRepr` for dict entries. -/
def pyReprFields : List (String × Json) → List String
  | [] => []
  | (k, v) :: fs => (squote ++ k ++ squote ++ ": " ++ pyRepr v) :: pyReprFields fs
end

/-- Python `str()` as used in f-string interpolation: a string passes
through unchanged, every other value prints as its `repr`. -/
def pyStr : Json → String
  | .str s => s
  | j => pyRepr j

/-- Python `os.path.join(a, b)` (POSIX): an absolute `b` wins; otherwise a
separator is inserted unless `a` is empty or already ends in one. -/
def osPathJoin (a b : String) : String :=
  if b.data.head? = some (Char.ofNat 47) then b
  else if a.data.isEmpty || a.data.getLast? = some (Char.ofNat 47) then a ++ b
  else a ++ "/" ++ b

/-- The placeholder token `{{text_positive}}` (braces written as code
points). -/
def TOKEN : String := "\x7b\x7btext_positive\x7d\x7d"

/-- One iteration of the auto-replacement scan (source lines 41-45): Python
evaluates `"inputs" in node and "text" in node["inputs"]` and, when both
hold, assigns `node["inputs"]["text"] = prompt`.  The `Except` layer carries
the `TypeError`/`AttributeError` cases of `in`, indexing and item
assignment; any such error aborts the whole scan (caught at line 52, the
template is then used as-is). -/
def scanNode (prompt : String) (node : Json) : Except Unit (Json × Bool) :=
  match pyContains "inputs" node with
  | .error e => .error e
  | .ok hasInputs =>
    if hasInputs then
      match pyIndex node "inputs" with
      | .error e => .error e
      | .ok inputs =>
        match pyContains "text" inputs with
        | .error e => .error e
        | .ok hasText =>
          if hasText then
            match node, inputs with
            | .obj nfs, .obj ifs =>
              .ok (.obj (setKey nfs "inputs" (.obj (setKey ifs "text" (.str prompt)))), true)
            | _, _ => .error ()
          else .ok (node, false)
    else .ok (node, false)

/-- The full auto-replacement scan over `workflow.items()` (source lines
40-45), returning the updated node list and the `prompt_replaced` flag. -/
def scanNodes (prompt : String) : List (String × Json) → Except Unit (List (String × Json) × Bool)
  | [] => .ok ([], false)
  | (nid, node) :: rest =>
    match scanNode prompt node with
    | .error e => .error e
    | .ok r1 =>
      match scanNodes prompt rest with
      | .error e => .error e
      | .ok r2 => .ok ((nid, r1.1) :: r2.1, r1.2 || r2.2)

/-- Template substitution, source lines 33-59.  When the template contains
`{{text_positive}}` every occurrence is replaced with the prompt (line 57).
Otherwise the code parses the template and overwrites `inputs.text` fields
(lines 36-54): a parse failure, or any exception while scanning the nodes,
leaves the template as-is; if no field was replaced the original text is
kept; if at least one was, the mutated workflow is re-serialized
(line 48). -/
def substituteTemplate (loads : String → Option Json) (dumps : Json → String)
    (prompt t : String) : String :=
  if containsSub TOKEN.data t.data then
    pyReplace t TOKEN prompt
  else
    match loads t with
    | none => t
    | some workflow =>
      match workflow with
      | .obj nodes =>
        match scanNodes prompt nodes with
        | .error _ => t
        | .ok r => if r.2 then dumps (.obj r.1) else t
      | _ => t

/-- Result of one HTTP call whose body the code reads with `.json()`:
`netErr` is a `requests.exceptions.RequestException`; otherwise a status
code and the parsed body (`none` when `.json()` raises). -/
inductive HttpResult where
  | netErr
  | resp (status : Nat) (body : Option Json)

/-- Result of one image download (`.content` is raw bytes, modelled as an
opaque string). -/
inductive DlResult where
  | netErr
  | resp (status : Nat) (content : String)

/-- The HTTP oracle for a run of `generate_image_from_comfyui`: the
submission response, the history response per poll attempt, the download
response per attempt and URL, and the final queue-status response. -/
structure Env where
  post : HttpResult
  history : Nat → HttpResult
  download : Nat → String → DlResult
  queue : HttpResult

/-- Source line 169 and alike: `api_url.replace("/api", "")` — Python
`str.replace` removes every occurrence of the substring, not only a
trailing path segment. -/
def stripApi (api_url : String) : String :=
  pyReplace api_url "/api" ""

/-- Primary download URL (source line 169). -/
def viewUrl (api_url filename : String) : String :=
  stripApi api_url ++ "/view?filename=" ++ filename ++ "&type=output"

/-- First fallback URL (source line 178). -/
def outputUrl (api_url filename : String) : String :=
  stripApi api_url ++ "/output/" ++ filename

/-- Second fallback URL (source line 183). -/
def outputsUrl (api_url filename : String) : String :=
  stripApi api_url ++ "/outputs/" ++ filename

/-- The three-candidate download of one image entry (source lines 173-191):
try `/view`, then `/output/<name>`, then `/outputs/<name>`; the first
status-200 response wins.  Returns the winning bytes (or `none` when the
entry is given up on) together with the list of URLs requested, in order.
A `RequestException` anywhere is caught by the handler at line 189 and
gives up on the entry without trying further candidates. -/
def tryDownload (dl : String → DlResult) (api_url filename : String) :
    Option String × List String :=
  let u1 := viewUrl api_url filename
  match dl u1 with
  | .netErr => (none, [u1])
  | .resp s1 b1 =>
    if s1 = 200 then (some b1, [u1])
    else
      let u2 := outputUrl api_url filename
      match dl u2 with
      | .netErr => (none, [u1, u2])
      | .resp s2 b2 =>
        if s2 = 200 then (some b2, [u1, u2])
        else
          let u3 := outputsUrl api_url filename
          match dl u3 with
          | .netErr => (none, [u1, u2, u3])
          | .resp s3 b3 =>
            if s3 = 200 then (some b3, [u1, u2, u3]) else (none, [u1, u2, u3])

/-- Reading `node_output["images"]` guarded by source lines 155-157:
`list(node_output.keys() if node_output else [])` raises on a truthy
non-dict, then `"images" in node_output` raises on `None`, numbers and
booleans; an empty string or list passes the test as `False`.  `.ok none`
means the node is skipped, `.error` aborts the whole attempt (caught at
line 208). -/
def nodeImagesField : Json → Except Unit (Option Json)
  | .obj fs => .ok (lookupStr fs "images")
  | .str s => if s.isEmpty then .ok none else .error ()
  | .arr xs => if xs.isEmpty then .ok none else .error ()
  | _ => .error ()

/-- Iterating `node_output["images"]` (source lines 158-159): `len` then
`enumerate`.  A list yields its elements, a string its one-character
strings, a dict its keys; `len` raises on anything else. -/
def imageElems : Json → Except Unit (List Json)
  | .arr xs => .ok xs
  | .str s => .ok (s.data.map (fun c => Json.str (String.mk [c])))
  | .obj fs => .ok (fs.map (fun p => Json.str p.1))
  | _ => .error ()

/-- The inner image loop (source lines 159-202): skip entries without a
truthy filename, try the three-candidate download, and on the first success
write the bytes to `output_dir/comfyui_<prompt_id>.png` and return that
path with the bytes.  `img_data.get` on a non-dict raises
(`AttributeError`), aborting the attempt. -/
def processImages (dl : Nat → String → DlResult) (api_url output_dir : String)
    (pid : Json) (i : Nat) : List Json → Except Unit (Option (String × String))
  | [] => .ok none
  | img :: rest =>
    match img with
    | .obj ifs =>
      let filename := (lookupStr ifs "filename").getD Json.null
      if !filename.truthy then processImages dl api_url output_dir pid i rest
      else
        match (tryDownload (dl i) api_url (pyStr filename)).1 with
        | none => processImages dl api_url output_dir pid i rest
        | some content =>
          .ok (some (osPathJoin output_dir ("comfyui_" ++ pyStr pid ++ ".png"), content))
    | _ => .error ()

/-- The outputs loop (source lines 154-203): visit the output nodes in
order, and inside each image-bearing node run the image loop; the first
successful download returns, a node without images (or whose images are all
unusable) is passed over. -/
def scanOutputs (dl : Nat → String → DlResult) (api_url output_dir : String)
    (pid : Json) (i : Nat) : List (String × Json) → Except Unit (Option (String × String))
  | [] => .ok none
  | (_, node_output) :: rest =>
    match nodeImagesField node_output with
    | .error e => .error e
    | .ok none => scanOutputs dl api_url output_dir pid i rest
    | .ok (some imgs) =>
      match imageElems imgs with
      | .error e => .error e
      | .ok elems =>
        match processImages dl api_url output_dir pid i elems with
        | .error e => .error e
        | .ok (some r) => .ok (some r)
        | .ok none => scanOutputs dl api_url output_dir pid i rest

/-- Source lines 145-207, after the completion flag was found truthy:
read `outputs` (default empty, falsy → continue), then scan it.
`outputs.items()` on a truthy non-dict raises (caught at line 208). -/
def afterCompleted (dl : Nat → String → DlResult) (api_url output_dir : String)
    (pid : Json) (i : Nat) (pfs : List (String × Json)) :
    Except Unit (Option (String × String)) :=
  let outputs := (lookupStr pfs "outputs").getD (Json.obj [])
  if !outputs.truthy then .ok none
  else
    match outputs with
    | .obj ofs => scanOutputs dl api_url output_dir pid i ofs
    | _ => .error ()

/-- The body of the per-attempt try block (source lines 123-207) given the
parsed history body: falsy history → continue; look up the prompt id
(absent or falsy → continue); read `status` (default empty dict) and its
`completed` flag (default `False`); a falsy flag continues, a truthy one
proceeds to the outputs.  `.get` on a non-dict raises, `.error` here is
caught at line 208 and the attempt continues. -/
def interpretHistory (dl : Nat → String → DlResult) (api_url output_dir : String)
    (pid : Json) (i : Nat) (history_data : Json) :
    Except Unit (Option (String × String)) :=
  if !history_data.truthy then .ok none
  else
    match history_data with
    | .obj hfs =>
      let prompt_data := (lookupPid hfs pid).getD Json.null
      if !prompt_data.truthy then .ok none
      else
        match prompt_data with
        | .obj pfs =>
          match (lookupStr pfs "status").getD (Json.obj []) with
          | .obj sfs =>
            let completed := (lookupStr sfs "completed").getD (Json.bool false)
            if !completed.truthy then .ok none
            else afterCompleted dl api_url output_dir pid i pfs
          | _ => .error ()
        | _ => .error ()
    | _ => .error ()

/-- One poll attempt (source lines 111-210): a request error or non-200
history response continues (lines 116-121); an unreadable body or any
exception inside the try continues (lines 208-210); otherwise the
interpreted outcome stands. -/
def runAttempt (env : Env) (api_url output_dir : String) (pid : Json) (i : Nat) :
    Option (String × String) :=
  match env.history i with
  | .netErr => none
  | .resp status body =>
    if status = 200 then
      match body with
      | none => none
      | some history_data =>
        match interpretHistory env.download api_url output_dir pid i history_data with
        | .error _ => none
        | .ok o => o
    else none

/-- Source line 109: `max_attempts = 120`. -/
def MAX_ATTEMPTS : Nat := 120

/-- The poll loop, source lines 110-210: attempts `0, 1, …, 119` in order,
stopping at the first success. -/
def pollLoop (env : Env) (api_url output_dir : String) (pid : Json) :
    Option (String × String) :=
  (List.range MAX_ATTEMPTS).findSome? (runAttempt env api_url output_dir pid)

/-- Python `x > 0` on a JSON value: integers compare, booleans count as
0/1, everything else raises `TypeError`. -/
def pyGtZero : Json → Except Unit Bool
  | .num n => .ok (0 < n)
  | .bool b => .ok b
  | _ => .error ()

/-- What the try block at source lines 214-226 does: `raisedStillProcessing`
is the `ValueError` raised at line 226 (carrying the running and pending
counts), `raisedOther` any other exception inside the block (request error,
unreadable body, `.get` on a non-dict, unorderable comparison), `noRaise`
a clean fall-through (non-200 status, or both counts not positive). -/
inductive QueueOutcome where
  | raisedStillProcessing (running pending : Json)
  | raisedOther
  | noRaise

/-- Evaluate the queue-status try block (source lines 214-226) on the queue
endpoint response. -/
def queueCheck : HttpResult → QueueOutcome
  | .netErr => .raisedOther
  | .resp status body =>
    if status = 200 then
      match body with
      | none => .raisedOther
      | some qd =>
        match qd with
        | .obj qfs =>
          let running := (lookupStr qfs "running_size").getD (Json.num 0)
          let pending := (lookupStr qfs "pending_size").getD (Json.num 0)
          match pyGtZero running with
          | .error _ => .raisedOther
          | .ok rb =>
            if rb then .raisedStillProcessing running pending
            else
              match pyGtZero pending with
              | .error _ => .raisedOther
              | .ok pb =>
                if pb then .raisedStillProcessing running pending else .noRaise
        | _ => .raisedOther
    else .noRaise

/-- The terminal errors of `generate_image_from_comfyui`, one constructor
per distinct raise site. `stillProcessing` stands for the distinct
"ComfyUI is still processing" message of line 224: the code builds, logs
and raises it, but the handler at line 227 catches it, so it never reaches
the caller. `timeout` is the generic message of line 230. -/
inductive GenError where
  | invalidTemplate
  | submissionFailed
  | responseError
  | missingPromptId
  | stillProcessing
  | timeout

/-- The error raised once the attempt budget is exhausted (source lines
212-232).  Whatever the queue-status try block does — including the
`ValueError` raised at line 226 — every exception is caught at line 227 and
only logged, and control always reaches the unconditional raise of the
generic timeout error at lines 230-232. -/
def exhaustedError (q : HttpResult) : GenError :=
  match queueCheck q with
  | .raisedStillProcessing _ _ => GenError.timeout
  | .raisedOther => GenError.timeout
  | .noRaise => GenError.timeout

/-- The whole of `generate_image_from_comfyui` (source lines 18-240):
substitute, validate (`InvalidTemplate` before any network call), submit
(non-200 or request error terminal; an unreadable submission body raises at
line 98, surfacing wrapped by lines 236-239, as does `.get` on a non-dict
body), require a truthy `prompt_id`, poll, and on exhaustion raise the
timeout error. On success the returned pair is the saved path and the
written bytes. -/
def generate_image_from_comfyui (loads : String → Option Json) (dumps : Json → String)
    (env : Env) (prompt api_url json_template output_dir : String) :
    Except GenError (String × String) :=
  let t := substituteTemplate loads dumps prompt json_template
  match loads t with
  | none => .error .invalidTemplate
  | some _ =>
    match env.post with
    | .netErr => .error .submissionFailed
    | .resp status body =>
      if status = 200 then
        match body with
        | none => .error .responseError
        | some rj =>
          match rj with
          | .obj rfs =>
            let pid := (lookupStr rfs "prompt_id").getD Json.null
            if !pid.truthy then .error .missingPromptId
            else
              match pollLoop env api_url output_dir pid with
              | some r => .ok r
              | none => .error (exhaustedError env.queue)
          | _ => .error .responseError
      else .error .submissionFailed

/-- Modelled from the spec: the result record of the media-search data
model ("provider tag, file path, a fixed nominal duration value").  The
class itself lives in `app/models/schema.py`, which is not among the staged
source files; only the three fields the wrapper assigns are modelled. -/
structure MaterialInfo where
  provider : String
  url : String
  duration : Nat

/-- The batch wrapper `search_images_comfyui` (source lines 243-289): an
empty API URL or template returns `[]` up front; the output directory comes
from the task-directory helper (external, passed as `task_dir`); any error
from the generation is swallowed into `[]`; a success is wrapped into a
single record with provider `comfyui` and duration `5`. -/
def search_images_comfyui (loads : String → Option Json) (dumps : Json → String)
    (env : Env) (task_dir : String → String)
    (search_term task_id api_url json_template : String) : List MaterialInfo :=
  if api_url = "" ∨ json_template = "" then []
  else
    let output_dir := task_dir task_id
    match generate_image_from_comfyui loads dumps env search_term api_url json_template output_dir with
    | .error _ => []
    | .ok r =>
      if r.1 = "" then []
      else [{ provider := "comfyui", url := r.1, duration := 5 }]

/-! ## Spec-side definitions

These follow the wording of the specification (not the code) and exist to
be compared with the definitions above. -/

/-- Spec-side, claim C2: the base URL "with only a trailing `/api` path
segment stripped (all other parts of the URL unchanged)". -/
def stripTrailingApi (u : String) : String :=
  if "/api".data.isSuffixOf u.data then String.mk (u.data.take (u.data.length - 4)) else u

/-- Spec-side, claim C2 as amended: the base URL with every occurrence of
the substring `/api` removed (split on the substring, join the pieces). -/
def removedEveryApi (u : String) : String :=
  String.mk (joinWith [] (splitOnFuel "/api".data u.data.length u.data))

/-- Spec-side, claim C5: "replaces every occurrence of the token with the
prompt text" read as: split the template at the token and join the pieces
with the prompt. -/
def tokenSplitJoin (prompt t : String) : String :=
  String.mk (joinWith prompt.data (splitOnFuel TOKEN.data t.data.length t.data))

/-- Spec-side, claim C5: a node "has an `inputs.text` field" when it is a
mapping whose `inputs` member is a mapping carrying a `text` member. -/
def hasInputsText : Json → Bool
  | .obj nfs =>
    match lookupStr nfs "inputs" with
    | some (.obj ifs) => (lookupStr ifs "text").isSome
    | _ => false
  | _ => false

/-- Spec-side, claim C5: overwrite the `inputs.text` field of a node with
the prompt when the node has one, and leave the node unchanged otherwise. -/
def overwriteNode (prompt : String) : Json → Json
  | .obj nfs =>
    match lookupStr nfs "inputs" with
    | some (.obj ifs) =>
      if (lookupStr ifs "text").isSome then
        .obj (setKey nfs "inputs" (.obj (setKey ifs "text" (.str prompt))))
      else .obj nfs
    | _ => .obj nfs
  | j => j

/-- Spec-side, claim C5: the substitution contract.  Token present →
replace every occurrence; otherwise if the template parses to a mapping
with at least one `inputs.text` field, overwrite every such field and
re-serialize; in every other case the template passes through unchanged. -/
def specSubstitute (loads : String → Option Json) (dumps : Json → String)
    (prompt t : String) : String :=
  if containsSub TOKEN.data t.data then tokenSplitJoin prompt t
  else
    match loads t with
    | some (.obj nodes) =>
      if nodes.any (fun p => hasInputsText p.2) then
        dumps (.obj (nodes.map (fun p => (p.1, overwriteNode prompt p.2))))
      else t
    | _ => t

/-- Does an `Except` hold a value? -/
def isOkB : Except Unit α → Bool
  | .ok _ => true
  | .error _ => false

/-- The hypothesis of the amended claim C5: either the token branch is
taken, or the auto-replacement scan of the parsed template raises no
exception (templates that do not parse, or parse to a non-mapping, scan
vacuously). -/
def substScanSafe (loads : String → Option Json) (prompt t : String) : Bool :=
  containsSub TOKEN.data t.data ||
    match loads t with
    | some (.obj nodes) => isOkB (scanNodes prompt nodes)
    | _ => true

/-! ## Helper lemmas -/

/-- `splitOnFuel` always yields at least one piece. -/
theorem splitOnFuel_ne_nil (pat : List Char) (fuel : Nat) (s : List Char) :
    splitOnFuel pat fuel s ≠ [] := by
  match fuel, s with
  | 0, s => simp [splitOnFuel]
  | fuel + 1, [] => simp [splitOnFuel]
  | fuel + 1, c :: rest =>
    simp only [splitOnFuel]
    split
    · simp
    · split <;> simp

/-- Replacing every occurrence equals splitting at the pattern and joining
with the replacement (the spec-side reading of "replace every
occurrence"). -/
theorem replaceFuel_eq_joinWith (pat rep : List Char) (fuel : Nat) (s : List Char) :
    replaceFuel pat rep fuel s = joinWith rep (splitOnFuel pat fuel s) := by
  induction fuel generalizing s with
  | zero => simp [replaceFuel, splitOnFuel, joinWith]
  | succ fuel ih =>
    match s with
    | [] => simp [replaceFuel, splitOnFuel, joinWith]
    | c :: rest =>
      simp only [replaceFuel, splitOnFuel]
      split
      · rename_i hmatch
        rcases hsplit : splitOnFuel pat fuel ((c :: rest).drop pat.length) with _ | ⟨p, ps⟩
        · exact absurd hsplit (splitOnFuel_ne_nil _ _ _)
        · rw [ih]
          rw [hsplit]
          simp [joinWith]
      · rcases hsplit : splitOnFuel pat fuel rest with _ | ⟨p, ps⟩
        · exact absurd hsplit (splitOnFuel_ne_nil _ _ _)
        · rw [ih, hsplit]
          cases ps <;> simp [joinWith]

/-- `pyReplace` replaces every occurrence: it equals split-and-join. -/
theorem pyReplace_eq_splitJoin (s pat rep : String) :
    pyReplace s pat rep = String.mk (joinWith rep.data (splitOnFuel pat.data s.data.length s.data)) := by
  unfold pyReplace
  rw [replaceFuel_eq_joinWith]

/-- A successful string lookup needs a non-empty association list. -/
theorem lookupStr_ne_nil {fs : List (String × Json)} {k : String} {v : Json}
    (h : lookupStr fs k = some v) : fs ≠ [] := by
  cases fs with
  | nil => simp [lookupStr] at h
  | cons p rest => simp

/-- One scan step agrees with the spec-side overwrite whenever it does not
raise: the updated node is the spec-side overwrite and the flag is the
spec-side field test. -/
theorem scanNode_ok {prompt : String} {node : Json} {r : Json × Bool}
    (h : scanNode prompt node = .ok r) :
    r = (overwriteNode prompt node, hasInputsText node) := by
  cases node with
  | null => simp [scanNode, pyContains] at h
  | bool b => simp [scanNode, pyContains] at h
  | num n => simp [scanNode, pyContains] at h
  | str s =>
    simp only [scanNode, pyContains, pyIndex] at h
    split at h
    · simp at h
    · simp only [Except.ok.injEq] at h
      subst h
      simp [overwriteNode, hasInputsText]
  | arr xs =>
    simp only [scanNode, pyContains, pyIndex] at h
    split at h
    · simp at h
    · simp only [Except.ok.injEq] at h
      subst h
      simp [overwriteNode, hasInputsText]
  | obj nfs =>
    simp only [scanNode, pyContains, pyIndex] at h
    rcases hval : lookupStr nfs "inputs" with _ | v
    · rw [hval] at h
      simp only [Option.isSome_none, Bool.false_eq_true, if_false] at h
      simp only [Except.ok.injEq] at h
      subst h
      simp [overwriteNode, hasInputsText, hval]
    · rw [hval] at h
      simp only [Option.isSome_some, if_true] at h
      cases v with
      | null => simp at h
      | bool b => simp at h
      | num n => simp at h
      | str s =>
        simp only at h
        split at h
        · simp at h
        · simp only [Except.ok.injEq] at h
          subst h
          simp [overwriteNode, hasInputsText, hval]
      | arr xs =>
        simp only at h
        split at h
        · simp at h
        · simp only [Except.ok.injEq] at h
          subst h
          simp [overwriteNode, hasInputsText, hval]
      | obj ifs =>
        simp only at h
        split at h
        · rename_i htext
          simp only [Except.ok.injEq] at h
          subst h
          simp [overwriteNode, hasInputsText, hval, htext]
        · rename_i htext
          simp only [Except.ok.injEq] at h
          subst h
          simp only [Bool.not_eq_true] at htext
          simp [overwriteNode, hasInputsText, hval, htext]

/-- The whole scan agrees with the spec-side overwrite whenever it does not
raise: every node is overwritten exactly when it has an `inputs.text` field,
and the flag records whether at least one node had one. -/
theorem scanNodes_ok {prompt : String} {nodes : List (String × Json)}
    {r : List (String × Json) × Bool} (h : scanNodes prompt nodes = .ok r) :
    r = (nodes.map (fun p => (p.1, overwriteNode prompt p.2)),
         nodes.any (fun p => hasInputsText p.2)) := by
  induction nodes generalizing r with
  | nil =>
    simp only [scanNodes, Except.ok.injEq] at h
    subst h
    simp
  | cons q rest ih =>
    obtain ⟨nid, node⟩ := q
    simp only [scanNodes] at h
    rcases h1 : scanNode prompt node with e | r1
    · rw [h1] at h; simp at h
    · rw [h1] at h
      rcases h2 : scanNodes prompt rest with e | r2
      · rw [h2] at h; simp at h
      · rw [h2] at h
        simp only [Except.ok.injEq] at h
        subst h
        have e1 := scanNode_ok h1
        have e2 := ih h2
        rw [e1, e2]
        simp

/-- `findSome?` yields `none` exactly when the function does on every
element. -/
theorem findSome?_eq_none_iff {α β : Type} {l : List α} {f : α → Option β} :
    l.findSome? f = none ↔ ∀ a ∈ l, f a = none := by
  induction l with
  | nil => simp [List.findSome?]
  | cons x xs ih =>
    simp only [List.findSome?]
    cases hfx : f x with
    | some v => simp [hfx]
    | none => simp [hfx, ih]

/-- A hit of `findSome?` comes from some element of the list. -/
theorem exists_of_findSome? {α β : Type} {l : List α} {f : α → Option β} {b : β}
    (h : l.findSome? f = some b) : ∃ a ∈ l, f a = some b := by
  induction l with
  | nil => simp [List.findSome?] at h
  | cons x xs ih =>
    simp only [List.findSome?] at h
    cases hfx : f x with
    | some v =>
      simp only [hfx] at h
      injection h with hvb
      subst hvb
      exact ⟨x, by simp, hfx⟩
    | none =>
      simp only [hfx] at h
      obtain ⟨a, ha, hfa⟩ := ih h
      exact ⟨a, by simp [ha], hfa⟩

/-- The file name the code saves to (source line 195). -/
def savedName (pid : Json) : String := "comfyui_" ++ pyStr pid ++ ".png"

/-- Any success of the image loop carries the canonical save path. -/
theorem processImages_path {dl : Nat → String → DlResult} {api od : String}
    {pid : Json} {i : Nat} {els : List Json} {r : String × String}
    (h : processImages dl api od pid i els = .ok (some r)) :
    r.1 = osPathJoin od (savedName pid) := by
  induction els with
  | nil => simp [processImages] at h
  | cons img rest ih =>
    cases img with
    | obj ifs =>
      simp only [processImages] at h
      split at h
      · exact ih h
      · rcases hdl : (tryDownload (dl i) api
            (pyStr ((lookupStr ifs "filename").getD Json.null))).1 with _ | content
        · rw [hdl] at h
          exact ih h
        · rw [hdl] at h
          simp only [Except.ok.injEq, Option.some.injEq] at h
          subst h
          rfl
    | null => simp [processImages] at h
    | bool b => simp [processImages] at h
    | num n => simp [processImages] at h
    | str s => simp [processImages] at h
    | arr xs => simp [processImages] at h

/-- Any success of the outputs loop carries the canonical save path. -/
theorem scanOutputs_path {dl : Nat → String → DlResult} {api od : String}
    {pid : Json} {i : Nat} {ns : List (String × Json)} {r : String × String}
    (h : scanOutputs dl api od pid i ns = .ok (some r)) :
    r.1 = osPathJoin od (savedName pid) := by
  induction ns generalizing r with
  | nil => simp [scanOutputs] at h
  | cons q rest ih =>
    obtain ⟨nid, node⟩ := q
    simp only [scanOutputs] at h
    rcases hni : nodeImagesField node with e | (_ | imgs)
    · simp only [hni] at h
      exact absurd h (by simp)
    · simp only [hni] at h
      exact ih h
    · simp only [hni] at h
      rcases hie : imageElems imgs with e | elems
      · simp only [hie] at h
        exact absurd h (by simp)
      · simp only [hie] at h
        rcases hpi : processImages dl api od pid i elems with e | (_ | r2)
        · simp only [hpi] at h
          exact absurd h (by simp)
        · simp only [hpi] at h
          exact ih h
        · simp only [hpi, Except.ok.injEq, Option.some.injEq] at h
          subst h
          exact processImages_path hpi

/-- Any success after the completion flag carries the canonical save
path. -/
theorem afterCompleted_path {dl : Nat → String → DlResult} {api od : String}
    {pid : Json} {i : Nat} {pfs : List (String × Json)} {r : String × String}
    (h : afterCompleted dl api od pid i pfs = .ok (some r)) :
    r.1 = osPathJoin od (savedName pid) := by
  simp only [afterCompleted] at h
  split at h
  · exact absurd h (by simp)
  · split at h
    · exact scanOutputs_path h
    · exact absurd h (by simp)

/-- Any success of the per-attempt interpretation carries the canonical
save path. -/
theorem interpretHistory_path {dl : Nat → String → DlResult} {api od : String}
    {pid : Json} {i : Nat} {j : Json} {r : String × String}
    (h : interpretHistory dl api od pid i j = .ok (some r)) :
    r.1 = osPathJoin od (savedName pid) := by
  simp only [interpretHistory] at h
  split at h
  · exact absurd h (by simp)
  · split at h
    · split at h
      · exact absurd h (by simp)
      · split at h
        · split at h
          · split at h
            · exact absurd h (by simp)
            · exact afterCompleted_path h
          · exact absurd h (by simp)
        · exact absurd h (by simp)
    · exact absurd h (by simp)

/-- Any successful attempt carries the canonical save path. -/
theorem runAttempt_path {env : Env} {api od : String} {pid : Json} {i : Nat}
    {r : String × String} (h : runAttempt env api od pid i = some r) :
    r.1 = osPathJoin od (savedName pid) := by
  unfold runAttempt at h
  split at h
  · simp at h
  · split at h
    · split at h
      · simp at h
      · split at h
        · simp at h
        · rename_i o hint
          subst h
          exact interpretHistory_path hint
    · simp at h

/-- Any successful poll carries the canonical save path. -/
theorem pollLoop_path {env : Env} {api od : String} {pid : Json}
    {r : String × String} (h : pollLoop env api od pid = some r) :
    r.1 = osPathJoin od (savedName pid) := by
  unfold pollLoop at h
  obtain ⟨a, _, ha⟩ := exists_of_findSome? h
  exact runAttempt_path ha

/-- Any successful run of the generator returns the canonical save path of
the prompt id the submission response carried. -/
theorem generate_ok_path {loads : String → Option Json} {dumps : Json → String}
    {env : Env} {prompt api t od p c}
    (h : generate_image_from_comfyui loads dumps env prompt api t od = .ok (p, c)) :
    ∃ pid : Json, p = osPathJoin od (savedName pid) := by
  simp only [generate_image_from_comfyui] at h
  rcases hl : loads (substituteTemplate loads dumps prompt t) with _ | w
  · simp only [hl] at h
    exact absurd h (by simp)
  · simp only [hl] at h
    rcases hp : env.post with _ | ⟨status, body⟩
    · simp only [hp] at h
      exact absurd h (by simp)
    · simp only [hp] at h
      split at h
      · rcases body with _ | rj
        · exact absurd h (by simp)
        · rcases rj with _ | b | n | s | xs | rfs
          · exact absurd h (by simp)
          · exact absurd h (by simp)
          · exact absurd h (by simp)
          · exact absurd h (by simp)
          · exact absurd h (by simp)
          · simp only at h
            split at h
            · exact absurd h (by simp)
            · rcases hpoll : pollLoop env api od
                  ((lookupStr rfs "prompt_id").getD Json.null) with _ | r
              · simp only [hpoll] at h
                exact absurd h (by simp)
              · simp only [hpoll] at h
                simp only [Except.ok.injEq] at h
                refine ⟨(lookupStr rfs "prompt_id").getD Json.null, ?_⟩
                have hpath := pollLoop_path hpoll
                rw [h] at hpath
                exact hpath
      · exact absurd h (by simp)

/-- The canonical save path is never the empty string. -/
theorem osPathJoin_savedName_ne_empty (od : String) (pid : Json) :
    osPathJoin od (savedName pid) ≠ "" := by
  have hb : (savedName pid).data ≠ [] := by
    unfold savedName
    intro hc
    rw [String.data_append, String.data_append] at hc
    rcases List.append_eq_nil.mp hc with ⟨h1, -⟩
    rcases List.append_eq_nil.mp h1 with ⟨h2, -⟩
    exact absurd h2 (by simp [String.data])
  unfold osPathJoin
  split
  · intro hc
    exact hb (by rw [congrArg String.data hc])
  · split
    · intro hc
      have := congrArg String.data hc
      rw [String.data_append] at this
      exact hb (List.append_eq_nil.mp this).2
    · intro hc
      have := congrArg String.data hc
      rw [String.data_append] at this
      exact absurd (List.append_eq_nil.mp this).1
        (by intro h2; rw [String.data_append] at h2; simp at h2)

/-- A successful keyed lookup needs a non-empty association list. -/
theorem lookupPid_ne_nil {fs : List (String × Json)} {pid v : Json}
    (h : lookupPid fs pid = some v) : fs ≠ [] := by
  cases pid <;> simp only [lookupPid] at h
  case str s => exact lookupStr_ne_nil h
  all_goals exact absurd h (by simp)

/-! ## Test fixtures (concrete inputs for closed theorems) -/

/-- Fixture: a loader that parses the single template literal `TPL` into an
empty workflow mapping and rejects everything else. -/
def loadsFix : String → Option Json := fun s => if s = "TPL" then some (.obj []) else none

/-- Fixture: a serializer with a fixed output. -/
def dumpsFix : Json → String := fun _ => "DUMPED"

/-- Fixture: submission succeeds with id `abc`, every history fetch fails
with a request error, and the queue endpoint reports one running job. -/
def envBusy : Env :=
  { post := .resp 200 (some (.obj [("prompt_id", .str "abc")]))
    history := fun _ => .netErr
    download := fun _ _ => .netErr
    queue := .resp 200 (some (.obj [("running_size", .num 1), ("pending_size", .num 0)])) }

/-- Fixture: a history record for id `abc` whose completion flag is the
string `false` — a truthy value that is not the boolean `true` — with one
downloadable image. -/
def histTruthyFlag : Json :=
  .obj [("abc", .obj [
    ("status", .obj [("completed", .str "false")]),
    ("outputs", .obj [("9", .obj [("images", .arr [.obj [("filename", .str "x.png")]])])])])]

/-- Fixture: environment serving `histTruthyFlag` on the first attempt, with
the primary download URL answering 200. -/
def envTruthyFlag : Env :=
  { post := .resp 200 (some (.obj [("prompt_id", .str "abc")]))
    history := fun i => if i = 0 then .resp 200 (some histTruthyFlag) else .netErr
    download := fun _ u =>
      if u = "http://h/view?filename=x.png&type=output" then .resp 200 "BYTES" else .resp 404 ""
    queue := .netErr }

/-! ## Claims -/

/-- C1 (code bug): with the attempt budget exhausted and the queue endpoint
reporting `running_size = 1`, the queue-status block does raise the
distinct still-processing error (first conjunct), but the error the caller
receives is the generic timeout error and not the distinct one (second and
third conjuncts): the `except` handler at source line 227 catches the
`ValueError` raised at line 226 and only logs it, after which line 232
raises the generic error unconditionally. -/
theorem C1_still_processing_never_reaches_caller :
    queueCheck envBusy.queue = .raisedStillProcessing (.num 1) (.num 0) ∧
    generate_image_from_comfyui loadsFix dumpsFix envBusy "p" "http://h" "TPL" "out" =
      .error .timeout ∧
    GenError.timeout ≠ GenError.stillProcessing :=
  ⟨rfl, rfl, fun hc => GenError.noConfusion hc⟩

/-- C2 counterexample: for the base URL `http://h/api/x` — whose `/api` is
not a trailing path segment — and filename `f.png`, the code removes the
interior `/api` (first conjunct), while a URL built on the base with only a
trailing `/api` segment stripped keeps it (second conjunct); the two
differ (third conjunct). -/
theorem C2_counterexample :
    viewUrl "http://h/api/x" "f.png" = "http://h/x/view?filename=f.png&type=output" ∧
    stripTrailingApi "http://h/api/x" ++ "/view?filename=" ++ "f.png" ++ "&type=output" =
      "http://h/api/x/view?filename=f.png&type=output" ∧
    viewUrl "http://h/api/x" "f.png" ≠
      stripTrailingApi "http://h/api/x" ++ "/view?filename=" ++ "f.png" ++ "&type=output" :=
  ⟨rfl, rfl, by decide⟩

/-- C2 as amended: the three candidate URLs are built on the base URL with
every occurrence of the substring `/api` removed (equivalently: the base
split at `/api` with the pieces joined), followed by
`/view?filename=<name>&type=output`, `/output/<name>` and
`/outputs/<name>` respectively. -/
theorem C2_url_shapes (api_url filename : String) :
    viewUrl api_url filename =
      removedEveryApi api_url ++ "/view?filename=" ++ filename ++ "&type=output" ∧
    outputUrl api_url filename = removedEveryApi api_url ++ "/output/" ++ filename ∧
    outputsUrl api_url filename = removedEveryApi api_url ++ "/outputs/" ++ filename := by
  have hs : stripApi api_url = removedEveryApi api_url := by
    unfold stripApi removedEveryApi
    rw [pyReplace_eq_splitJoin]
  unfold viewUrl outputUrl outputsUrl
  rw [hs]
  exact ⟨rfl, rfl, rfl⟩

/-- C3 counterexample: the completion flag `"false"` (a string, so not the
boolean `true`) lets the attempt proceed to output scanning, all the way to
a downloaded image — the claim says any non-true flag never reaches the
output scan. -/
theorem C3_counterexample :
    (Json.str "false") ≠ (Json.bool true) ∧
    envTruthyFlag.history 0 = .resp 200 (some histTruthyFlag) ∧
    runAttempt envTruthyFlag "http://h" "out" (.str "abc") 0 =
      some ("out/comfyui_abc.png", "BYTES") :=
  ⟨fun hc => Json.noConfusion hc, rfl, rfl⟩

/-- C3 as amended: the attempt passes the completion check exactly when the
flag is truthy under Python truthiness (an absent flag defaults to false):
a falsy flag continues the loop, a truthy one — not only the boolean
`true` — hands over to the outputs stage. -/
theorem C3_completed_truthiness (env : Env) (api od : String) (pid : Json) (i : Nat)
    (hfs pfs sfs : List (String × Json))
    (hh : env.history i = .resp 200 (some (.obj hfs)))
    (hpd : lookupPid hfs pid = some (.obj pfs))
    (hst : lookupStr pfs "status" = some (.obj sfs)) :
    runAttempt env api od pid i =
      (if ((lookupStr sfs "completed").getD (.bool false)).truthy then
        (match afterCompleted env.download api od pid i pfs with
         | .error _ => none
         | .ok o => o)
       else none) := by
  rcases hfs with _ | ⟨q, hfs2⟩
  · exact absurd rfl (lookupPid_ne_nil hpd)
  · rcases pfs with _ | ⟨q2, pfs2⟩
    · simp [lookupStr] at hst
    · simp only [runAttempt, hh]
      simp only [interpretHistory, hpd, Option.getD_some, hst,
        show (Json.obj (q :: hfs2)).truthy = true from rfl,
        show (Json.obj (q2 :: pfs2)).truthy = true from rfl]
      by_cases hc : ((lookupStr sfs "completed").getD (.bool false)).truthy
      · simp [hc]
      · simp [hc]

/-- Fixture: a first-attempt history record for id `idw` whose status
carries no completion flag at all. -/
def envNoFlag : Env :=
  { post := .netErr
    history := fun _ => .resp 200 (some (.obj [("idw", .obj [("status", .obj [("zz", .num 1)])])]))
    download := fun _ _ => .netErr
    queue := .netErr }

/-- Witness for `C3_completed_truthiness` at a concrete input: with the
completion flag absent it defaults to `False`, and the attempt
continues. -/
theorem C3_completed_truthiness_witness :
    runAttempt envNoFlag "a" "o" (.str "idw") 0 =
      (if ((lookupStr [("zz", Json.num 1)] "completed").getD (.bool false)).truthy then
        (match afterCompleted envNoFlag.download "a" "o" (.str "idw") 0
            [("status", Json.obj [("zz", Json.num 1)])] with
         | .error _ => none
         | .ok o => o)
       else none) :=
  C3_completed_truthiness envNoFlag "a" "o" (.str "idw") 0
    [("idw", .obj [("status", .obj [("zz", .num 1)])])]
    [("status", .obj [("zz", .num 1)])] [("zz", .num 1)] rfl rfl rfl

/-- Fixture: a loader that parses the template literal `T5` into a workflow
with a poison node `a` — the bare string `inputs`, for which Python's
`"inputs" in node` is a substring test that succeeds while `node["inputs"]`
then raises `TypeError` — next to node `b`, which has a genuine
`inputs.text` field. -/
def loadsPoison : String → Option Json := fun s =>
  if s = "T5" then
    some (.obj [("a", .str "inputs"), ("b", .obj [("inputs", .obj [("text", .str "old")])])])
  else none

/-- C5 counterexample: the template `T5` parses and its node `b` has an
`inputs.text` field, yet the code returns the template unchanged — the
scan dies on the poison node `a` before re-serializing — while the claim
requires every `inputs.text` field to be overwritten (the spec-side
substitution re-serializes the overwritten workflow, here to `DUMPED`). -/
theorem C5_counterexample :
    substituteTemplate loadsPoison dumpsFix "NEW" "T5" = "T5" ∧
    hasInputsText (.obj [("inputs", .obj [("text", .str "old")])]) = true ∧
    specSubstitute loadsPoison dumpsFix "NEW" "T5" = "DUMPED" ∧
    ("T5" : String) ≠ "DUMPED" :=
  ⟨rfl, rfl, rfl, by decide⟩

/-- C5 as amended: whenever the node scan raises no error (in particular
always in the token branch, and vacuously when the template does not parse
to a mapping), the code substitution agrees with the spec-side contract:
token present → every occurrence replaced by the prompt (split at the
token, join with the prompt); otherwise every node with an `inputs.text`
field is overwritten and the workflow re-serialized when at least one such
field exists, and the template passes through unchanged when none does; if
the scan raises, the template is likewise used unchanged. -/
theorem C5_substitution (loads : String → Option Json) (dumps : Json → String)
    (prompt t : String) (h : substScanSafe loads prompt t = true) :
    substituteTemplate loads dumps prompt t = specSubstitute loads dumps prompt t := by
  unfold substScanSafe at h
  unfold substituteTemplate specSubstitute
  by_cases htok : containsSub TOKEN.data t.data = true
  · simp only [htok, if_true]
    unfold tokenSplitJoin
    exact pyReplace_eq_splitJoin t TOKEN prompt
  · simp only [htok, Bool.false_eq_true, if_false]
    simp only [htok, Bool.false_or] at h
    rcases hl : loads t with _ | w
    · rfl
    · rcases w with _ | b | n | s | xs | nodes
      · rfl
      · rfl
      · rfl
      · rfl
      · rfl
      · rcases hsc : scanNodes prompt nodes with e | r
        · simp only [hl, hsc, isOkB] at h
          exact absurd h (by simp)
        · have hr := scanNodes_ok hsc
          simp only [hsc]
          rw [hr]

/-- Witness for `C5_substitution` at a concrete input: the token branch. -/
theorem C5_substitution_witness :
    substituteTemplate loadsFix dumpsFix "CAT"
        "A \x7b\x7btext_positive\x7d\x7dB" =
      specSubstitute loadsFix dumpsFix "CAT" "A \x7b\x7btext_positive\x7d\x7dB" :=
  C5_substitution loadsFix dumpsFix "CAT" "A \x7b\x7btext_positive\x7d\x7dB" rfl

/-- C6: when the substituted template does not parse, the call fails with
the invalid-template error — and it does so for every HTTP oracle, i.e.
the submission request (and every other request) is never consulted. -/
theorem C6_invalid_template_before_network (loads : String → Option Json)
    (dumps : Json → String) (env : Env) (prompt api t od : String)
    (h : loads (substituteTemplate loads dumps prompt t) = none) :
    generate_image_from_comfyui loads dumps env prompt api t od = .error .invalidTemplate := by
  simp only [generate_image_from_comfyui, h]

/-- Fixture: a loader that rejects every template. -/
def loadsNone : String → Option Json := fun _ => none

/-- Witness for `C6_invalid_template_before_network` at a concrete
input. -/
theorem C6_invalid_template_witness :
    generate_image_from_comfyui loadsNone dumpsFix envBusy "p" "http://h" "X" "out" =
      .error .invalidTemplate :=
  C6_invalid_template_before_network loadsNone dumpsFix envBusy "p" "http://h" "X" "out" rfl

/-- C7: the poll loop is the bounded scan of attempts `0 … 119` — the
literal budget 120 of source line 109, within the recommended 60-120
range — and every transient condition (request error, non-200 status,
unreadable body, empty history, prompt id absent, or any exception while
interpreting the poll response) makes the attempt yield `none`, i.e. the
loop continues instead of terminating early.  (The 1-second sleep per
iteration is a timing effect outside the embedding.) -/
theorem C7_poll_bounded_and_transient_continue (env : Env) (api od : String)
    (pid : Json) (i : Nat) :
    (MAX_ATTEMPTS = 120 ∧ 60 ≤ MAX_ATTEMPTS ∧ MAX_ATTEMPTS ≤ 120) ∧
    pollLoop env api od pid =
      (List.range MAX_ATTEMPTS).findSome? (runAttempt env api od pid) ∧
    (env.history i = .netErr → runAttempt env api od pid i = none) ∧
    (∀ s b, env.history i = .resp s b → s ≠ 200 → runAttempt env api od pid i = none) ∧
    (env.history i = .resp 200 none → runAttempt env api od pid i = none) ∧
    (∀ j, env.history i = .resp 200 (some j) → j.truthy = false →
      runAttempt env api od pid i = none) ∧
    (∀ hfs, env.history i = .resp 200 (some (.obj hfs)) → lookupPid hfs pid = none →
      runAttempt env api od pid i = none) ∧
    (∀ j, env.history i = .resp 200 (some j) →
      interpretHistory env.download api od pid i j = .error () →
      runAttempt env api od pid i = none) := by
  refine ⟨⟨rfl, by decide, by decide⟩, rfl, ?_, ?_, ?_, ?_, ?_, ?_⟩
  · intro hh
    simp [runAttempt, hh]
  · intro s b hh hs
    simp [runAttempt, hh, hs]
  · intro hh
    simp [runAttempt, hh]
  · intro j hh ht
    have hred : interpretHistory env.download api od pid i j = .ok none := by
      simp only [interpretHistory, ht]
      simp
    simp [runAttempt, hh, hred]
  · intro hfs hh hl
    rcases hfs with _ | ⟨q, l⟩
    · simp [runAttempt, hh, interpretHistory, Json.truthy]
    · have hred : interpretHistory env.download api od pid i (.obj (q :: l)) = .ok none := by
        simp only [interpretHistory, hl,
          show (Json.obj (q :: l)).truthy = true from rfl]
        simp [Json.truthy]
      simp [runAttempt, hh, hred]
  · intro j hh hint
    simp [runAttempt, hh, hint]

/-- C4: the three-candidate download requests `/view` first, falls back to
`/output/<name>` and then `/outputs/<name>` exactly on non-200 statuses
(the URL request lists record the order), uses the bytes of the first
success, and an entry whose three candidates all fail is skipped: the
image loop continues with the remaining entries, and the call as a whole
gives up only when every attempt of the budget yields nothing. -/
theorem C4_download_fallback_order (dl1 : String → DlResult)
    (dl : Nat → String → DlResult) (env : Env) (api od f : String) (pid : Json)
    (i : Nat) (ifs : List (String × Json)) (rest : List Json) :
    (∀ b, dl1 (viewUrl api f) = .resp 200 b →
      tryDownload dl1 api f = (some b, [viewUrl api f])) ∧
    (∀ s1 b1 b2, dl1 (viewUrl api f) = .resp s1 b1 → s1 ≠ 200 →
      dl1 (outputUrl api f) = .resp 200 b2 →
      tryDownload dl1 api f = (some b2, [viewUrl api f, outputUrl api f])) ∧
    (∀ s1 b1 s2 b2 b3, dl1 (viewUrl api f) = .resp s1 b1 → s1 ≠ 200 →
      dl1 (outputUrl api f) = .resp s2 b2 → s2 ≠ 200 →
      dl1 (outputsUrl api f) = .resp 200 b3 →
      tryDownload dl1 api f = (some b3, [viewUrl api f, outputUrl api f, outputsUrl api f])) ∧
    (∀ s1 b1 s2 b2 s3 b3, dl1 (viewUrl api f) = .resp s1 b1 → s1 ≠ 200 →
      dl1 (outputUrl api f) = .resp s2 b2 → s2 ≠ 200 →
      dl1 (outputsUrl api f) = .resp s3 b3 → s3 ≠ 200 →
      tryDownload dl1 api f = (none, [viewUrl api f, outputUrl api f, outputsUrl api f])) ∧
    (((lookupStr ifs "filename").getD Json.null).truthy = true →
      (tryDownload (dl i) api (pyStr ((lookupStr ifs "filename").getD Json.null))).1 = none →
      processImages dl api od pid i (.obj ifs :: rest) =
        processImages dl api od pid i rest) ∧
    (pollLoop env api od pid = none ↔
      ∀ k < MAX_ATTEMPTS, runAttempt env api od pid k = none) := by
  refine ⟨?_, ?_, ?_, ?_, ?_, ?_⟩
  · intro b hb
    simp [tryDownload, hb]
  · intro s1 b1 b2 h1 hs1 h2
    simp [tryDownload, h1, hs1, h2]
  · intro s1 b1 s2 b2 b3 h1 hs1 h2 hs2 h3
    simp [tryDownload, h1, hs1, h2, hs2, h3]
  · intro s1 b1 s2 b2 s3 b3 h1 hs1 h2 hs2 h3 hs3
    simp [tryDownload, h1, hs1, h2, hs2, h3, hs3]
  · intro hft hdl
    simp [processImages, hft, hdl]
  · unfold pollLoop
    rw [findSome?_eq_none_iff]
    constructor
    · intro hall k hk
      exact hall k (List.mem_range.mpr hk)
    · intro hall k hk
      exact hall k (List.mem_range.mp hk)

/-- `processImages` ignores entries appended after a success. -/
theorem processImages_append {dl : Nat → String → DlResult} {api od : String}
    {pid : Json} {i : Nat} {els rest : List Json} {r : String × String}
    (h : processImages dl api od pid i els = .ok (some r)) :
    processImages dl api od pid i (els ++ rest) = .ok (some r) := by
  induction els with
  | nil => simp [processImages] at h
  | cons img l ih =>
    cases img with
    | obj ifs =>
      rw [List.cons_append]
      simp only [processImages] at h ⊢
      split at h
      · rename_i hft
        rw [if_pos hft]
        exact ih h
      · rename_i hft
        rw [if_neg hft]
        rcases hdl : (tryDownload (dl i) api
            (pyStr ((lookupStr ifs "filename").getD Json.null))).1 with _ | content
        · simp only [hdl] at h ⊢
          exact ih h
        · simp only [hdl] at h ⊢
          exact h
    | null => simp [processImages] at h
    | bool b => simp [processImages] at h
    | num n => simp [processImages] at h
    | str s => simp [processImages] at h
    | arr xs => simp [processImages] at h

/-- `scanOutputs` ignores nodes appended after a success. -/
theorem scanOutputs_append {dl : Nat → String → DlResult} {api od : String}
    {pid : Json} {i : Nat} {ns rest : List (String × Json)} {r : String × String}
    (h : scanOutputs dl api od pid i ns = .ok (some r)) :
    scanOutputs dl api od pid i (ns ++ rest) = .ok (some r) := by
  induction ns with
  | nil => simp [scanOutputs] at h
  | cons q l ih =>
    obtain ⟨nid, node⟩ := q
    rw [List.cons_append]
    simp only [scanOutputs] at h ⊢
    rcases hni : nodeImagesField node with e | (_ | imgs)
    · simp only [hni] at h
      exact absurd h (by simp)
    · simp only [hni] at h ⊢
      exact ih h
    · simp only [hni] at h ⊢
      rcases hie : imageElems imgs with e | elems
      · simp only [hie] at h
        exact absurd h (by simp)
      · simp only [hie] at h ⊢
        rcases hpi : processImages dl api od pid i elems with e | (_ | r2)
        · simp only [hpi] at h
          exact absurd h (by simp)
        · simp only [hpi] at h ⊢
          exact ih h
        · simp only [hpi] at h ⊢
          exact h

/-- Any success of a run whose submission response carried the mapping
`rfs` is saved under the id that mapping carries. -/
theorem generate_post_path {loads : String → Option Json} {dumps : Json → String}
    {env : Env} {prompt api t od p c} {rfs : List (String × Json)}
    (hp : env.post = .resp 200 (some (.obj rfs)))
    (h : generate_image_from_comfyui loads dumps env prompt api t od = .ok (p, c)) :
    p = osPathJoin od (savedName ((lookupStr rfs "prompt_id").getD Json.null)) := by
  simp only [generate_image_from_comfyui] at h
  rcases hl : loads (substituteTemplate loads dumps prompt t) with _ | w
  · simp only [hl] at h
    exact absurd h (by simp)
  · simp only [hl, hp] at h
    split at h
    · split at h
      · exact absurd h (by simp)
      · rcases hpoll : pollLoop env api od
            ((lookupStr rfs "prompt_id").getD Json.null) with _ | r
        · simp only [hpoll] at h
          exact absurd h (by simp)
        · simp only [hpoll, Except.ok.injEq] at h
          have hpath := pollLoop_path hpoll
          rw [h] at hpath
          exact hpath
    · exact absurd h (by simp)

/-- C8: a first successful download ends the call: every success of the
call is saved under `output_dir/comfyui_<prompt_id>.png` (conjunct 1), the
returned bytes are exactly the bytes the winning candidate URL served
(conjunct 4), and the first success is returned immediately — image
entries appended after it (conjunct 2) and output nodes appended after it
(conjunct 3) cannot change the result.  Directory creation
(`os.makedirs` with `exist_ok`) is a filesystem effect outside the
embedding; the write is modelled by the returned bytes. -/
theorem C8_first_success_saves_and_returns (loads : String → Option Json)
    (dumps : Json → String) (env : Env) (prompt api t od : String) (pid : Json) (i : Nat) :
    (∀ rfs p c, env.post = .resp 200 (some (.obj rfs)) →
      generate_image_from_comfyui loads dumps env prompt api t od = .ok (p, c) →
      p = osPathJoin od (savedName ((lookupStr rfs "prompt_id").getD Json.null))) ∧
    (∀ (dl : Nat → String → DlResult) els rest r,
      processImages dl api od pid i els = .ok (some r) →
      processImages dl api od pid i (els ++ rest) = .ok (some r)) ∧
    (∀ (dl : Nat → String → DlResult) ns rest r,
      scanOutputs dl api od pid i ns = .ok (some r) →
      scanOutputs dl api od pid i (ns ++ rest) = .ok (some r)) ∧
    (∀ (dl : Nat → String → DlResult) ifs rest c,
      ((lookupStr ifs "filename").getD Json.null).truthy = true →
      (tryDownload (dl i) api (pyStr ((lookupStr ifs "filename").getD Json.null))).1 = some c →
      processImages dl api od pid i (.obj ifs :: rest) =
        .ok (some (osPathJoin od (savedName pid), c))) := by
  refine ⟨?_, ?_, ?_, ?_⟩
  · intro rfs p c hp h
    exact generate_post_path hp h
  · intro dl els rest r h
    exact processImages_append h
  · intro dl ns rest r h
    exact scanOutputs_append h
  · intro dl ifs rest c hft hdl
    simp [processImages, hft, hdl, savedName]

/-- C9: the batch wrapper is fail-soft: an empty API URL or an empty
template short-circuits to the empty list — for every HTTP oracle, so no
request is consulted — every error of the generator is swallowed into the
empty list, and a success is wrapped into exactly one record with provider
`comfyui`, the saved path and the fixed duration 5. -/
theorem C9_search_fail_soft (loads : String → Option Json) (dumps : Json → String)
    (env : Env) (task_dir : String → String) (term tid api t : String) :
    (api = "" → search_images_comfyui loads dumps env task_dir term tid api t = []) ∧
    (t = "" → search_images_comfyui loads dumps env task_dir term tid api t = []) ∧
    (∀ e, generate_image_from_comfyui loads dumps env term api t (task_dir tid) = .error e →
      search_images_comfyui loads dumps env task_dir term tid api t = []) ∧
    (∀ p c, api ≠ "" → t ≠ "" →
      generate_image_from_comfyui loads dumps env term api t (task_dir tid) = .ok (p, c) →
      search_images_comfyui loads dumps env task_dir term tid api t =
        [{ provider := "comfyui", url := p, duration := 5 }]) := by
  refine ⟨?_, ?_, ?_, ?_⟩
  · intro h
    simp [search_images_comfyui, h]
  · intro h
    simp [search_images_comfyui, h]
  · intro e h
    by_cases hapi : api = ""
    · simp [search_images_comfyui, hapi]
    · by_cases ht : t = ""
      · simp [search_images_comfyui, ht]
      · simp [search_images_comfyui, hapi, ht, h]
  · intro p c hapi ht h
    have hpne : p ≠ "" := by
      obtain ⟨pid, hpp⟩ := generate_ok_path h
      rw [hpp]
      exact osPathJoin_savedName_ne_empty (task_dir tid) pid
    simp [search_images_comfyui, hapi, ht, h, hpne]

/-- C10: a normal return of the generator is never the empty string: every
success carries the non-empty canonical save path.  (The loop-exhaustion
branch always raises, so the trailing `return output_image_path` with the
empty-string default is unreachable; accordingly the embedding has no
success outcome carrying the default.) -/
theorem C10_no_empty_path (loads : String → Option Json) (dumps : Json → String)
    (env : Env) (prompt api t od p c : String)
    (h : generate_image_from_comfyui loads dumps env prompt api t od = .ok (p, c)) :
    p ≠ "" := by
  obtain ⟨pid, hp⟩ := generate_ok_path h
  rw [hp]
  exact osPathJoin_savedName_ne_empty od pid

/-- Fixture: a first-attempt history for id `abc`, completed, with one
image `x.png` in node `9`. -/
def histHappy : Json :=
  .obj [("abc", .obj [
    ("status", .obj [("completed", .bool true)]),
    ("outputs", .obj [("9", .obj [("images", .arr [.obj [("filename", .str "x.png")]])])])])]

/-- Fixture: a run that succeeds at the first attempt via the primary
download URL. -/
def envHappy : Env :=
  { post := .resp 200 (some (.obj [("prompt_id", .str "abc")]))
    history := fun i => if i = 0 then .resp 200 (some histHappy) else .netErr
    download := fun _ u =>
      if u = "http://h/view?filename=x.png&type=output" then .resp 200 "BYTES" else .resp 404 ""
    queue := .netErr }

/-- Witness for `C10_no_empty_path` at a concrete input: the happy-path
run returns `out/comfyui_abc.png`, which is not empty. -/
theorem C10_no_empty_path_witness :
    generate_image_from_comfyui loadsFix dumpsFix envHappy "p" "http://h" "TPL" "out" =
      .ok ("out/comfyui_abc.png", "BYTES") ∧
    ("out/comfyui_abc.png" : String) ≠ "" :=
  ⟨rfl, C10_no_empty_path loadsFix dumpsFix envHappy "p" "http://h" "TPL" "out"
      "out/comfyui_abc.png" "BYTES" rfl⟩

end ComfyUI
